import Mathlib

/-!
# protoc-gen-pprpc-service: the generator of `main.go`, embedded in Lean

The generator walks the parsed schema files handed over by `protogen`, keeps the
files that are flagged for generation and whose name ends in `services.proto`,
and prints one Go file per kept file: a preamble, a wrapper type and the adapter
functions of every service, and the routine `transformTwirpError`.

Go strings are lists of characters. The three command line options are a record
that is passed explicitly. A `protogen.GeneratedFile` is a record that keeps the
calls made on it: one entry of `buf` per call of `P` (the arguments of the call),
one entry of `manualImports` per call of `Import`, one entry of `resolved` per
call of `QualifiedGoIdent`. The text that the library returns from
`QualifiedGoIdent` is kept symbolic, as `Piece.qualified ident`.
-/

namespace Pprpc

/-- A Go string. -/
abbrev GoString := List Char

/-! ## The functions of package `strings` that `main.go` calls -/

/-- Go `strings.HasSuffix`: `len(s) >= len(suffix) && s[len(s)-len(suffix):] == suffix`. -/
def HasSuffix (s suffix : GoString) : Bool :=
  decide (suffix.length ≤ s.length) && (s.drop (s.length - suffix.length) == suffix)

/-- Go `strings.TrimRight` for a cutset of ASCII characters: trailing characters
are removed for as long as the last one belongs to the cutset. -/
def TrimRight (s cutset : GoString) : GoString :=
  s.rdropWhile (fun c => cutset.contains c)

/-- Go `strings.Index`: the position of the first occurrence of `substr` in `s`,
`none` standing for the result `-1`. -/
def Index : GoString → GoString → Option Nat
  | [], substr => if substr.isPrefixOf [] then some 0 else none
  | c :: s, substr =>
    if substr.isPrefixOf (c :: s) then some 0 else (Index s substr).map (· + 1)

/-- The replacement loop of Go `strings.Replace`: at most `n` times, copy the text
up to the next occurrence of `old`, write `new`, and go on behind the occurrence;
the rest of the string is copied unchanged. -/
def replaceLoop (old new : GoString) : Nat → GoString → GoString
  | 0, s => s
  | n + 1, s =>
    match Index s old with
    | none => s
    | some j => s.take j ++ new ++ replaceLoop old new n (s.drop (j + old.length))

/-- Go `strings.Replace(s, old, new, n)` for `n ≥ 0` and a non-empty `old` (the
call site passes `"Service"` and `1`): the first `n` non-overlapping occurrences
of `old` are replaced, and `s` is returned as it is when `old == new`, when
`n == 0` or when `old` does not occur. -/
def Replace (s old new : GoString) (n : Nat) : GoString :=
  if old == new || n == 0 then s else replaceLoop old new n s

/-! ## The part of `protogen` that `main.go` uses -/

/-- Go `protogen.GoIdent`: a bare name and the import path it lives in. -/
structure GoIdent where
  GoName : GoString
  GoImportPath : GoString
  deriving DecidableEq, Repr

/-- One argument of a call of `P`: a Go string, or the string returned by
`QualifiedGoIdent` for an identifier. -/
inductive Piece where
  | text (s : GoString)
  | qualified (ident : GoIdent)
  deriving DecidableEq, Repr

/-- The arguments of one call of `P`, which prints them on one line. -/
abbrev Line := List Piece

/-- A string literal as an argument of `P`. -/
def lit (s : String) : Piece := Piece.text s.toList

/-- Go `protogen.Message`, reduced to its `GoIdent`. -/
structure Message where
  GoIdent : GoIdent
  deriving DecidableEq, Repr

/-- Go `protogen.Method`. -/
structure Method where
  GoName : GoString
  Input : Message
  Output : Message
  deriving DecidableEq, Repr

/-- Go `protogen.Service`. -/
structure Service where
  GoName : GoString
  Methods : List Method
  deriving DecidableEq, Repr

/-- Go `descriptorpb.FileDescriptorProto`, reduced to its name. -/
structure FileDescriptorProto where
  Name : GoString
  deriving DecidableEq, Repr

/-- Go `protogen.File`. -/
structure File where
  Proto : FileDescriptorProto
  GoPackageName : GoString
  GoImportPath : GoString
  Generate : Bool
  Services : List Service
  deriving DecidableEq, Repr

/-- Go `protogen.GeneratedFile`, as the record of the calls made on it. -/
structure GeneratedFile where
  filename : GoString
  goImportPath : GoString
  buf : List Line
  manualImports : List GoString
  resolved : List GoIdent
  deriving DecidableEq, Repr

/-- Go `gen.NewGeneratedFile(filename, goImportPath)`: an empty file. -/
def NewGeneratedFile (filename goImportPath : GoString) : GeneratedFile :=
  { filename := filename, goImportPath := goImportPath, buf := [],
    manualImports := [], resolved := [] }

/-- Go `gf.P(v...)`: one more printed line. -/
def GeneratedFile.P (gf : GeneratedFile) (v : Line) : GeneratedFile :=
  { gf with buf := gf.buf ++ [v] }

/-- Go `gf.Import(importPath)`: one more declared import. -/
def GeneratedFile.Import (gf : GeneratedFile) (importPath : GoString) : GeneratedFile :=
  { gf with manualImports := gf.manualImports ++ [importPath] }

/-- Go `gf.QualifiedGoIdent(ident)`: the returned text, symbolic, and the file
with the identifier recorded. -/
def GeneratedFile.QualifiedGoIdent (gf : GeneratedFile) (ident : GoIdent) :
    Piece × GeneratedFile :=
  (Piece.qualified ident, { gf with resolved := gf.resolved ++ [ident] })

/-! ## `main.go` -/

def serviceProtoFileSuffix : GoString := "services.proto".toList

def cmdArgDomainImportPath : GoString := "domainPath".toList

def cmdArgUseCaseImportPath : GoString := "useCasePath".toList

def cmdArgDtsImportPath : GoString := "dtsPath".toList

/-- The three package level variables of `main.go`, set from the options
`domainPath`, `useCasePath` and `dtsPath`. -/
structure Options where
  domainImportPath : GoString
  useCaseImportPath : GoString
  dtsImportPath : GoString
  deriving DecidableEq, Repr

def transformTwirpErrFnTemplate : GoString :=
  ("\nfunc transformTwirpError(err error) twirp.Error \x7b\n" ++
   "\ttwerr := twirp.NewError(twirp.Internal, err.Error())\n" ++
   "\tif domainErr, ok := err.(domain.Error); ok \x7b\n" ++
   "\t\ttwerr = twerr.WithMeta(\"domainCode\", fmt.Sprintf(\"%d\", domainErr.Code))\n" ++
   "\t\x7d\n" ++
   "\treturn twirp.WrapError(twerr, err)\n" ++
   "\x7d\n").toList

def domainIdent (opts : Options) (gf : GeneratedFile) (ident : GoString) :
    Piece × GeneratedFile :=
  gf.QualifiedGoIdent { GoName := ident, GoImportPath := opts.domainImportPath }

def useCaseIdent (opts : Options) (gf : GeneratedFile) (ident : GoString) :
    Piece × GeneratedFile :=
  gf.QualifiedGoIdent { GoName := ident, GoImportPath := opts.useCaseImportPath }

def contextIdent (gf : GeneratedFile) : Piece × GeneratedFile :=
  gf.QualifiedGoIdent { GoName := "Context".toList, GoImportPath := "context".toList }

def dtsTransformIdent (opts : Options) (gf : GeneratedFile) : Piece × GeneratedFile :=
  gf.QualifiedGoIdent { GoName := "Transform".toList, GoImportPath := opts.dtsImportPath }

def requestPramIdent (opts : Options) (gf : GeneratedFile) (pbParamTypeName : GoString) :
    Piece × GeneratedFile :=
  if HasSuffix pbParamTypeName "Param".toList || HasSuffix pbParamTypeName "Params".toList then
    gf.QualifiedGoIdent { GoName := pbParamTypeName, GoImportPath := opts.useCaseImportPath }
  else
    gf.QualifiedGoIdent { GoName := pbParamTypeName, GoImportPath := opts.domainImportPath }

def responsePayloadIdent (opts : Options) (gf : GeneratedFile) (respTypeName : GoString) :
    Piece × GeneratedFile :=
  if HasSuffix respTypeName "Response".toList then
    gf.QualifiedGoIdent { GoName := respTypeName, GoImportPath := opts.useCaseImportPath }
  else
    gf.QualifiedGoIdent { GoName := respTypeName, GoImportPath := opts.domainImportPath }

/-- The body of the loop over `srv.Methods` in `main` (lines 71 to 101). -/
def emitMethod (opts : Options) (serviceRpcStruct : GoString)
    (contextIdent dtsTransformIdent : Piece) (gf : GeneratedFile) (method : Method) :
    GeneratedFile :=
  let inName := method.Input.GoIdent.GoName
  let outName := method.Output.GoIdent.GoName
  let gf := gf.P [lit "func (service ", Piece.text serviceRpcStruct, lit ") ",
    Piece.text method.GoName, lit "(_ ", contextIdent, lit ", pbIn *", Piece.text inName,
    lit ") (*", Piece.text outName, lit ", error)", lit "\x7b"]
  let gf := gf.P [lit "var err error"]
  let r := requestPramIdent opts gf inName
  let gf := r.2.P [lit "var ucIn ", r.1]
  let r := responsePayloadIdent opts gf outName
  let gf := r.2.P [lit "var ucOut *", r.1]
  let gf := gf.P [lit "var pbOut ", Piece.text outName]
  let gf := gf.P []
  let gf := gf.P [lit "if err = ", dtsTransformIdent, lit "(pbIn, &ucIn); err != nil \x7b "]
  let gf := gf.P [lit "\treturn nil, err"]
  let gf := gf.P [lit "\x7d"]
  let gf := gf.P []
  let gf := gf.P [lit "if ucOut, err = service.UseCase.", Piece.text method.GoName,
    lit "(ucIn); err != nil \x7b"]
  let gf := gf.P [lit "  return nil, transformTwirpError(err)"]
  let gf := gf.P [lit "\x7d"]
  let gf := gf.P []
  let gf := gf.P [lit "if err = ", dtsTransformIdent, lit "(ucOut, &pbOut); err != nil \x7b "]
  let gf := gf.P [lit "\treturn nil, err"]
  let gf := gf.P [lit "\x7d"]
  let gf := gf.P []
  let gf := gf.P [lit "return &pbOut, nil"]
  gf.P [lit "\x7d"]

/-- The body of the loop over `f.Services` in `main` (lines 61 to 102). -/
def emitService (opts : Options) (contextIdent dtsTransformIdent : Piece)
    (gf : GeneratedFile) (srv : Service) : GeneratedFile :=
  let serviceRpcStruct := srv.GoName ++ "Rpc".toList
  let r := useCaseIdent opts gf (Replace srv.GoName "Service".toList "UseCase".toList 1)
  let gf := r.2.P [lit "type ", Piece.text serviceRpcStruct, lit " struct \x7b"]
  let gf := gf.P [lit "UseCase ", r.1]
  let gf := gf.P [lit "\x7d"]
  let gf := gf.P [lit ""]
  srv.Methods.foldl (emitMethod opts serviceRpcStruct contextIdent dtsTransformIdent) gf

/-- What `main` does for a file that is not skipped (lines 49 to 104): the
generated file it creates and fills. -/
def emitFile (opts : Options) (f : File) : GeneratedFile :=
  let protoFileName := f.Proto.Name
  let goFileName := TrimRight protoFileName ".proto".toList ++ "_pprpc.pb.go".toList
  let gf := NewGeneratedFile goFileName f.GoImportPath
  let gf := gf.P [lit "// Code generated by protoc-gen-go-pprpc. DO NOT EDIT."]
  let gf := gf.P []
  let gf := gf.P [lit "package ", Piece.text f.GoPackageName]
  let gf := gf.Import "errors".toList
  let gf := gf.Import "github.com/twitchtv/twirp".toList
  let gf := gf.Import cmdArgDomainImportPath
  let c := contextIdent gf
  let d := dtsTransformIdent opts c.2
  let gf := f.Services.foldl (emitService opts c.1 d.1) d.2
  gf.P [Piece.text transformTwirpErrFnTemplate]

/-- The body of the loop over `gen.Files` in `main` (lines 43 to 105); `gen` is
the list of the generated files created so far. -/
def mainStep (opts : Options) (gen : List GeneratedFile) (f : File) : List GeneratedFile :=
  let protoFileName := f.Proto.Name
  if !f.Generate || !HasSuffix protoFileName serviceProtoFileSuffix then
    gen
  else
    gen ++ [emitFile opts f]

/-- The function that `main` hands to `protogen`: the generated files, in the
order of their creation, for the schema files `files`. -/
def main (opts : Options) (files : List File) : List GeneratedFile :=
  files.foldl (mainStep opts) []

/-! ## The printed lines, described -/

/-- The root that the request parameter rule chooses for the bare name `n`: the
use-case root for a name that ends with `Param` or with `Params`, the domain root
for every other name. -/
def requestRoot (opts : Options) (n : GoString) : GoString :=
  if "Param".toList <:+ n ∨ "Params".toList <:+ n then opts.useCaseImportPath
  else opts.domainImportPath

/-- The root that the response payload rule chooses for the bare name `n`: the
use-case root for a name that ends with `Response`, the domain root for every
other name. -/
def responseRoot (opts : Options) (n : GoString) : GoString :=
  if "Response".toList <:+ n then opts.useCaseImportPath else opts.domainImportPath

/-- The lines of one adapter function. -/
def methodLines (opts : Options) (serviceRpcStruct : GoString)
    (contextIdent dtsTransformIdent : Piece) (method : Method) : List Line :=
  [ [lit "func (service ", Piece.text serviceRpcStruct, lit ") ", Piece.text method.GoName,
      lit "(_ ", contextIdent, lit ", pbIn *", Piece.text method.Input.GoIdent.GoName,
      lit ") (*", Piece.text method.Output.GoIdent.GoName, lit ", error)", lit "\x7b"],
    [lit "var err error"],
    [lit "var ucIn ", Piece.qualified
      ⟨method.Input.GoIdent.GoName, requestRoot opts method.Input.GoIdent.GoName⟩],
    [lit "var ucOut *", Piece.qualified
      ⟨method.Output.GoIdent.GoName, responseRoot opts method.Output.GoIdent.GoName⟩],
    [lit "var pbOut ", Piece.text method.Output.GoIdent.GoName],
    [],
    [lit "if err = ", dtsTransformIdent, lit "(pbIn, &ucIn); err != nil \x7b "],
    [lit "\treturn nil, err"],
    [lit "\x7d"],
    [],
    [lit "if ucOut, err = service.UseCase.", Piece.text method.GoName,
      lit "(ucIn); err != nil \x7b"],
    [lit "  return nil, transformTwirpError(err)"],
    [lit "\x7d"],
    [],
    [lit "if err = ", dtsTransformIdent, lit "(ucOut, &pbOut); err != nil \x7b "],
    [lit "\treturn nil, err"],
    [lit "\x7d"],
    [],
    [lit "return &pbOut, nil"],
    [lit "\x7d"] ]

/-- The lines of the wrapper type of a service. -/
def wrapperLines (opts : Options) (srv : Service) : List Line :=
  [ [lit "type ", Piece.text (srv.GoName ++ "Rpc".toList), lit " struct \x7b"],
    [lit "UseCase ", Piece.qualified
      ⟨Replace srv.GoName "Service".toList "UseCase".toList 1, opts.useCaseImportPath⟩],
    [lit "\x7d"],
    [lit ""] ]

/-- The lines of a service: its wrapper type, then its adapter functions. -/
def serviceLines (opts : Options) (contextIdent dtsTransformIdent : Piece) (srv : Service) :
    List Line :=
  wrapperLines opts srv ++
    srv.Methods.flatMap
      (methodLines opts (srv.GoName ++ "Rpc".toList) contextIdent dtsTransformIdent)

/-- The lines at the head of a generated file. -/
def preambleLines (f : File) : List Line :=
  [ [lit "// Code generated by protoc-gen-go-pprpc. DO NOT EDIT."],
    [],
    [lit "package ", Piece.text f.GoPackageName] ]

/-- The text of `QualifiedGoIdent` for `context.Context`. -/
def contextPiece : Piece :=
  Piece.qualified ⟨"Context".toList, "context".toList⟩

/-- The text of `QualifiedGoIdent` for the data-transform function. -/
def dtsPiece (opts : Options) : Piece :=
  Piece.qualified ⟨"Transform".toList, opts.dtsImportPath⟩

/-- The line that holds the routine `transformTwirpError`. -/
def templateLine : Line := [Piece.text transformTwirpErrFnTemplate]

/-- The name in a line of the shape `type <name> struct {`. -/
def typeHeaderName : Line → Option GoString
  | [Piece.text kw, Piece.text name, Piece.text opener] =>
    if kw = "type ".toList ∧ opener = " struct \x7b".toList then some name else none
  | _ => none

/-- The type declarations among printed lines, in order: for every line
`type <name> struct {`, the name and the lines up to the next line `}`. -/
def wrapperTypes : List Line → List (GoString × List Line)
  | [] => []
  | l :: rest =>
    match typeHeaderName l with
    | some name => (name, rest.takeWhile (fun x => x != [lit "\x7d"])) :: wrapperTypes rest
    | none => wrapperTypes rest

/-! ## The scenario of the specification -/

/-- The options of the scenario: the three roots. -/
def scenarioOptions : Options :=
  { domainImportPath := "pkg/domain".toList, useCaseImportPath := "pkg/usecase".toList,
    dtsImportPath := "pkg/dts".toList }

/-- The method `CreateOrder(CreateOrderParam) returns (CreateOrderResponse)`. -/
def scenarioMethod : Method :=
  { GoName := "CreateOrder".toList,
    Input := ⟨⟨"CreateOrderParam".toList, "pkg/rpc".toList⟩⟩,
    Output := ⟨⟨"CreateOrderResponse".toList, "pkg/rpc".toList⟩⟩ }

/-- The service `OrderService`. -/
def scenarioService : Service :=
  { GoName := "OrderService".toList, Methods := [scenarioMethod] }

/-- The schema file `order.services.proto`, flagged for generation. -/
def scenarioFile : File :=
  { Proto := ⟨"order.services.proto".toList⟩, GoPackageName := "rpc".toList,
    GoImportPath := "pkg/rpc".toList, Generate := true, Services := [scenarioService] }

/-! ## Reading the adapter functions and the imports back -/

/-- The receiver type and the name in a line of the shape
`func (service <type>) <name>(_ ...`. -/
def funcHeader : Line → Option (GoString × GoString)
  | Piece.text kw :: Piece.text rpc :: Piece.text sep :: Piece.text name :: _ =>
    if kw = "func (service ".toList ∧ sep = ") ".toList then some (rpc, name) else none
  | _ => none

/-- The adapter functions among printed lines, in order: for every line
`func (service <type>) <name>(_ ...`, the receiver type and the name. -/
def adapterFunctions (buf : List Line) : List (GoString × GoString) :=
  buf.filterMap funcHeader

/-- The import paths that a generated file declares: those of the calls of
`Import`, and those of the identifiers passed to `QualifiedGoIdent`. -/
def declaredImports (gf : GeneratedFile) : List GoString :=
  gf.manualImports ++ gf.resolved.map (fun i => i.GoImportPath)

/-! ## The routine `transformTwirpError`, as the function that its text declares

The text of `transformTwirpErrFnTemplate` is the Go function below. It uses
`twirp.NewError`, `WithMeta` and `twirp.WrapError` of the module
`github.com/twitchtv/twirp`, `fmt.Sprintf`, and the type `domain.Error` of the
domain module. -/

/-- Go `twirp.ErrorCode`. -/
abbrev ErrorCode := GoString

/-- Go `twirp.Internal`. -/
def Internal : ErrorCode := "internal".toList

/-- A Go `error` as the routine uses it: the text that `err.Error()` returns,
and the field `Code` when the dynamic type of the value is `domain.Error`, which
is when the assertion `err.(domain.Error)` succeeds. -/
structure GoError where
  Error : GoString
  domainCode : Option Int
  deriving DecidableEq, Repr

/-- Go `twirp.Error`: the code, the message, the metadata and the wrapped cause. -/
structure TwirpError where
  code : ErrorCode
  msg : GoString
  meta : List (GoString × GoString)
  cause : Option GoError
  deriving DecidableEq, Repr

/-- Go `twirp.NewError(code, msg)` for a valid code, as `twirp.Internal` is: an
error with no metadata and no cause. -/
def NewError (code : ErrorCode) (msg : GoString) : TwirpError :=
  { code := code, msg := msg, meta := [], cause := none }

/-- Go `twerr.WithMeta(key, val)`: a copy in which `key` is set to `val`. -/
def TwirpError.WithMeta (e : TwirpError) (key val : GoString) : TwirpError :=
  { e with meta := e.meta.filter (fun kv => kv.1 != key) ++ [(key, val)] }

/-- Go `twirp.WrapError(twerr, err)`: `twerr` with the cause `err`. -/
def WrapError (twerr : TwirpError) (err : GoError) : TwirpError :=
  { twerr with cause := some err }

/-- Go `fmt.Sprintf("%d", c)` for an integer `c`: its decimal digits, behind a
minus sign when `c` is negative. -/
def SprintfD (c : Int) : GoString :=
  if c < 0 then '-' :: Nat.toDigits 10 c.natAbs else Nat.toDigits 10 c.natAbs

/-- The Go function that `transformTwirpErrFnTemplate` declares. -/
def transformTwirpError (err : GoError) : TwirpError :=
  let twerr := NewError Internal err.Error
  let twerr :=
    match err.domainCode with
    | some code => twerr.WithMeta "domainCode".toList (SprintfD code)
    | none => twerr
  WrapError twerr err

/-! ## Facts about the string functions -/

theorem HasSuffix_iff (s suffix : GoString) : HasSuffix s suffix = true ↔ suffix <:+ s := by
  unfold HasSuffix
  rw [Bool.and_eq_true, decide_eq_true_iff, beq_iff_eq]
  constructor
  · rintro ⟨_, h⟩
    exact List.suffix_iff_eq_drop.mpr h.symm
  · intro h
    exact ⟨h.length_le, (List.suffix_iff_eq_drop.mp h).symm⟩

theorem TrimRight_services_proto (p : GoString) :
    TrimRight (p ++ "services.proto".toList) ".proto".toList = p ++ "services".toList := by
  have e : p ++ "services.proto".toList
      = (((((((p ++ "service".toList) ++ ['s']) ++ ['.']) ++ ['p']) ++ ['r']) ++ ['o']) ++ ['t'])
          ++ ['o'] := by simp
  have e2 : p ++ "services".toList = (p ++ "service".toList) ++ ['s'] := by simp
  rw [e, e2]
  unfold TrimRight
  rw [List.rdropWhile_concat_pos _ _ _ (by decide), List.rdropWhile_concat_pos _ _ _ (by decide),
    List.rdropWhile_concat_pos _ _ _ (by decide), List.rdropWhile_concat_pos _ _ _ (by decide),
    List.rdropWhile_concat_pos _ _ _ (by decide), List.rdropWhile_concat_pos _ _ _ (by decide),
    List.rdropWhile_concat_neg _ _ _ (by decide)]

/-- What `Index` returns: `none` only when `old` does not occur in `s`, and
otherwise the start of the leftmost occurrence. -/
theorem Index_spec (old : GoString) (s : GoString) :
    (Index s old = none ∧ ¬ old <:+: s) ∨
    (∃ a b, Index s old = some a.length ∧ s = a ++ old ++ b ∧
      ∀ a1 b1, s = a1 ++ old ++ b1 → a.length ≤ a1.length) := by
  induction s with
  | nil =>
    by_cases h : old = []
    · right
      refine ⟨[], [], ?_, ?_, ?_⟩
      · simp [Index, h]
      · simp [h]
      · intros; simp
    · left
      constructor
      · cases old with
        | nil => exact absurd rfl h
        | cons x xs => simp [Index, List.isPrefixOf]
      · simpa using h
  | cons c t ih =>
    by_cases hp : old <+: c :: t
    · right
      obtain ⟨b, hb⟩ := hp
      refine ⟨[], b, ?_, ?_, ?_⟩
      · have : old.isPrefixOf (c :: t) = true := by
          rw [List.isPrefixOf_iff_prefix]; exact ⟨b, hb⟩
        simp [Index, this]
      · simpa using hb.symm
      · intros; simp
    · have hpf : old.isPrefixOf (c :: t) = false := by
        rw [Bool.eq_false_iff]
        intro h
        exact hp (List.isPrefixOf_iff_prefix.mp h)
      rcases ih with ⟨hn, hni⟩ | ⟨a, b, hi, hs, hleft⟩
      · left
        constructor
        · simp [Index, hpf, hn]
        · rw [List.infix_cons_iff]
          rintro (h | h)
          · exact hp h
          · exact hni h
      · right
        refine ⟨c :: a, b, ?_, ?_, ?_⟩
        · simp [Index, hpf, hi]
        · simp [hs]
        · intro a1 b1 h1
          cases a1 with
          | nil =>
            exfalso
            apply hp
            exact ⟨b1, by simpa using h1.symm⟩
          | cons x xs =>
            simp only [List.cons_append, List.cons.injEq] at h1
            have := hleft xs b1 (by simpa using h1.2)
            simpa using this

/-! ## The printed lines of `main` -/

theorem requestPramIdent_fst (opts : Options) (gf : GeneratedFile) (n : GoString) :
    (requestPramIdent opts gf n).1 = Piece.qualified ⟨n, requestRoot opts n⟩ := by
  unfold requestPramIdent requestRoot
  by_cases h : "Param".toList <:+ n ∨ "Params".toList <:+ n
  · have h2 : (HasSuffix n "Param".toList || HasSuffix n "Params".toList) = true := by
      rw [Bool.or_eq_true, HasSuffix_iff, HasSuffix_iff]; exact h
    rw [if_pos h2, if_pos h]; rfl
  · have h2 : ¬ (HasSuffix n "Param".toList || HasSuffix n "Params".toList) = true := by
      rw [Bool.or_eq_true, HasSuffix_iff, HasSuffix_iff]; exact h
    rw [if_neg h2, if_neg h]; rfl

theorem responsePayloadIdent_fst (opts : Options) (gf : GeneratedFile) (n : GoString) :
    (responsePayloadIdent opts gf n).1 = Piece.qualified ⟨n, responseRoot opts n⟩ := by
  unfold responsePayloadIdent responseRoot
  by_cases h : "Response".toList <:+ n
  · rw [if_pos ((HasSuffix_iff _ _).mpr h), if_pos h]; rfl
  · have h2 : ¬ HasSuffix n "Response".toList = true := fun h3 => h ((HasSuffix_iff _ _).mp h3)
    rw [if_neg h2, if_neg h]; rfl

theorem requestPramIdent_snd (opts : Options) (gf : GeneratedFile) (n : GoString) :
    (requestPramIdent opts gf n).2.buf = gf.buf ∧
    (requestPramIdent opts gf n).2.filename = gf.filename ∧
    (requestPramIdent opts gf n).2.goImportPath = gf.goImportPath ∧
    (requestPramIdent opts gf n).2.manualImports = gf.manualImports := by
  unfold requestPramIdent
  split <;> simp [GeneratedFile.QualifiedGoIdent]

theorem responsePayloadIdent_snd (opts : Options) (gf : GeneratedFile) (n : GoString) :
    (responsePayloadIdent opts gf n).2.buf = gf.buf ∧
    (responsePayloadIdent opts gf n).2.filename = gf.filename ∧
    (responsePayloadIdent opts gf n).2.goImportPath = gf.goImportPath ∧
    (responsePayloadIdent opts gf n).2.manualImports = gf.manualImports := by
  unfold responsePayloadIdent
  split <;> simp [GeneratedFile.QualifiedGoIdent]

theorem emitMethod_spec (opts : Options) (rpc : GoString) (c d : Piece) (gf : GeneratedFile)
    (m : Method) :
    (emitMethod opts rpc c d gf m).buf = gf.buf ++ methodLines opts rpc c d m ∧
    (emitMethod opts rpc c d gf m).filename = gf.filename ∧
    (emitMethod opts rpc c d gf m).goImportPath = gf.goImportPath ∧
    (emitMethod opts rpc c d gf m).manualImports = gf.manualImports := by
  simp only [emitMethod, GeneratedFile.P, requestPramIdent_fst, responsePayloadIdent_fst,
    requestPramIdent_snd, responsePayloadIdent_snd, methodLines]
  simp

theorem foldl_emitMethod_spec (opts : Options) (rpc : GoString) (c d : Piece)
    (ms : List Method) (gf : GeneratedFile) :
    (ms.foldl (emitMethod opts rpc c d) gf).buf
        = gf.buf ++ ms.flatMap (methodLines opts rpc c d) ∧
    (ms.foldl (emitMethod opts rpc c d) gf).filename = gf.filename ∧
    (ms.foldl (emitMethod opts rpc c d) gf).goImportPath = gf.goImportPath ∧
    (ms.foldl (emitMethod opts rpc c d) gf).manualImports = gf.manualImports := by
  induction ms generalizing gf with
  | nil => simp
  | cons m ms ih =>
    obtain ⟨h1, h2, h3, h4⟩ := emitMethod_spec opts rpc c d gf m
    obtain ⟨i1, i2, i3, i4⟩ := ih (emitMethod opts rpc c d gf m)
    simp only [List.foldl_cons, List.flatMap_cons]
    refine ⟨?_, ?_, ?_, ?_⟩
    · rw [i1, h1, List.append_assoc]
    · rw [i2, h2]
    · rw [i3, h3]
    · rw [i4, h4]

theorem emitService_spec (opts : Options) (c d : Piece) (gf : GeneratedFile) (srv : Service) :
    (emitService opts c d gf srv).buf = gf.buf ++ serviceLines opts c d srv ∧
    (emitService opts c d gf srv).filename = gf.filename ∧
    (emitService opts c d gf srv).goImportPath = gf.goImportPath ∧
    (emitService opts c d gf srv).manualImports = gf.manualImports := by
  unfold emitService
  simp only []
  obtain ⟨i1, i2, i3, i4⟩ := foldl_emitMethod_spec opts (srv.GoName ++ "Rpc".toList) c d
    srv.Methods
    ((((((useCaseIdent opts gf
      (Replace srv.GoName "Service".toList "UseCase".toList 1)).2.P
        [lit "type ", Piece.text (srv.GoName ++ "Rpc".toList), lit " struct \x7b"]).P
        [lit "UseCase ", (useCaseIdent opts gf
          (Replace srv.GoName "Service".toList "UseCase".toList 1)).1]).P [lit "\x7d"]).P
        [lit ""]))
  rw [i1, i2, i3, i4]
  simp [GeneratedFile.P, useCaseIdent, GeneratedFile.QualifiedGoIdent, serviceLines,
    wrapperLines]

theorem foldl_emitService_spec (opts : Options) (c d : Piece) (ss : List Service)
    (gf : GeneratedFile) :
    (ss.foldl (emitService opts c d) gf).buf = gf.buf ++ ss.flatMap (serviceLines opts c d) ∧
    (ss.foldl (emitService opts c d) gf).filename = gf.filename ∧
    (ss.foldl (emitService opts c d) gf).goImportPath = gf.goImportPath ∧
    (ss.foldl (emitService opts c d) gf).manualImports = gf.manualImports := by
  induction ss generalizing gf with
  | nil => simp
  | cons s ss ih =>
    obtain ⟨h1, h2, h3, h4⟩ := emitService_spec opts c d gf s
    obtain ⟨i1, i2, i3, i4⟩ := ih (emitService opts c d gf s)
    simp only [List.foldl_cons, List.flatMap_cons]
    refine ⟨?_, ?_, ?_, ?_⟩
    · rw [i1, h1, List.append_assoc]
    · rw [i2, h2]
    · rw [i3, h3]
    · rw [i4, h4]

/-- The printed lines of a generated file: the preamble, the lines of the
services in file order, and the routine `transformTwirpError`. -/
theorem emitFile_buf (opts : Options) (f : File) :
    (emitFile opts f).buf
      = preambleLines f ++ f.Services.flatMap (serviceLines opts contextPiece (dtsPiece opts))
          ++ [templateLine] := by
  unfold emitFile
  simp only []
  have hc : ∀ g, (contextIdent g).1 = contextPiece := fun _ => rfl
  have hd : ∀ g, (dtsTransformIdent opts g).1 = dtsPiece opts := fun _ => rfl
  simp only [hc, hd, GeneratedFile.P]
  rw [(foldl_emitService_spec opts contextPiece (dtsPiece opts) f.Services _).1]
  simp [GeneratedFile.P, GeneratedFile.Import, contextIdent, dtsTransformIdent,
    GeneratedFile.QualifiedGoIdent, NewGeneratedFile, preambleLines, templateLine]

theorem emitFile_meta (opts : Options) (f : File) :
    (emitFile opts f).filename
      = TrimRight f.Proto.Name ".proto".toList ++ "_pprpc.pb.go".toList ∧
    (emitFile opts f).goImportPath = f.GoImportPath ∧
    (emitFile opts f).manualImports
      = ["errors".toList, "github.com/twitchtv/twirp".toList, cmdArgDomainImportPath] := by
  unfold emitFile
  simp only []
  have hc : ∀ g, (contextIdent g).1 = contextPiece := fun _ => rfl
  have hd : ∀ g, (dtsTransformIdent opts g).1 = dtsPiece opts := fun _ => rfl
  simp only [hc, hd, GeneratedFile.P]
  rw [(foldl_emitService_spec opts contextPiece (dtsPiece opts) f.Services _).2.1,
    (foldl_emitService_spec opts contextPiece (dtsPiece opts) f.Services _).2.2.1,
    (foldl_emitService_spec opts contextPiece (dtsPiece opts) f.Services _).2.2.2]
  simp [GeneratedFile.P, GeneratedFile.Import, contextIdent, dtsTransformIdent,
    GeneratedFile.QualifiedGoIdent, NewGeneratedFile]

/-! ## Replacement of the first occurrence -/

theorem Replace_one_of_none (s old new : GoString) (h : Index s old = none) :
    Replace s old new 1 = s := by
  unfold Replace
  split
  · rfl
  · simp [replaceLoop, h]

theorem Replace_one_of_some (a b old new : GoString) (hne : (old == new) = false)
    (h : Index (a ++ old ++ b) old = some a.length) :
    Replace (a ++ old ++ b) old new 1 = a ++ new ++ b := by
  unfold Replace
  simp only [hne, Bool.false_or, beq_iff_eq, OfNat.one_ne_ofNat, if_false]
  have ht : (a ++ old ++ b).take a.length = a := by
    rw [List.append_assoc, List.take_left]
  have hd : (a ++ old ++ b).drop (a.length + old.length) = b := by
    rw [← List.length_append, List.drop_left]
  simp only [replaceLoop, h, ht, hd]
  rw [if_neg (by decide)]

/-- The word `Service` does not overlap itself: when `Service ++ b = r ++ Service`,
either `r` is empty or `r` starts with a whole `Service`. -/
theorem Service_no_overlap (r b : GoString)
    (h : "Service".toList ++ b = r ++ "Service".toList) :
    r = [] ∨ "Service".toList <+: r := by
  rcases r with _ | ⟨c1, _ | ⟨c2, _ | ⟨c3, _ | ⟨c4, _ | ⟨c5, _ | ⟨c6, _ | ⟨c7, r⟩⟩⟩⟩⟩⟩⟩
  · left; rfl
  all_goals simp at h
  right
  obtain ⟨h1, h2, h3, h4, h5, h6, h7, _⟩ := h
  subst h1 h2 h3 h4 h5 h6 h7
  exact ⟨r, by simp⟩

theorem Index_trailing_Service (p : GoString) (h : ¬ "Service".toList <:+: p) :
    Index (p ++ "Service".toList ++ []) "Service".toList = some p.length := by
  rcases Index_spec "Service".toList (p ++ "Service".toList ++ []) with
    ⟨_, hni⟩ | ⟨a, b, hi, hs, hleft⟩
  · exact absurd ⟨p, [], rfl⟩ hni
  · have hle : a.length ≤ p.length := hleft p [] rfl
    have hs2 : p ++ "Service".toList = a ++ ("Service".toList ++ b) := by
      simpa using hs
    have hpre : a <+: p :=
      List.prefix_of_prefix_length_le ⟨_, hs2.symm⟩ ⟨_, rfl⟩ hle
    obtain ⟨r, rfl⟩ := hpre
    rw [List.append_assoc, List.append_cancel_left_eq] at hs2
    rcases Service_no_overlap r b hs2.symm with hr | hr
    · subst hr
      simpa using hi
    · exfalso
      apply h
      obtain ⟨t, rfl⟩ := hr
      exact ⟨a, t, by simp⟩

/-! ## Selection of the schema files -/

theorem foldl_mainStep (opts : Options) (files : List File) (gen : List GeneratedFile) :
    files.foldl (mainStep opts) gen
      = gen ++ (files.filter
          (fun f => f.Generate && decide ("services.proto".toList <:+ f.Proto.Name))).map
          (emitFile opts) := by
  induction files generalizing gen with
  | nil => simp
  | cons f fs ih =>
    rw [List.foldl_cons, ih, List.filter_cons]
    by_cases hg : f.Generate = true
    · by_cases hs : "services.proto".toList <:+ f.Proto.Name
      · have hs2 : HasSuffix f.Proto.Name serviceProtoFileSuffix = true :=
          (HasSuffix_iff _ _).mpr hs
        have hc : (f.Generate && decide ("services.proto".toList <:+ f.Proto.Name)) = true := by
          rw [hg, decide_eq_true hs]; rfl
        rw [if_pos hc]
        unfold mainStep
        simp only [hg, hs2, Bool.not_true, Bool.or_self, Bool.false_eq_true, if_false,
          List.map_cons, List.append_assoc, List.singleton_append]
      · have hs2 : HasSuffix f.Proto.Name serviceProtoFileSuffix = false := by
          rw [Bool.eq_false_iff]
          exact fun h => hs ((HasSuffix_iff _ _).mp h)
        have hc : ¬ (f.Generate && decide ("services.proto".toList <:+ f.Proto.Name)) = true := by
          rw [hg, decide_eq_false hs]; decide
        rw [if_neg hc]
        unfold mainStep
        simp only [hg, hs2, Bool.not_true, Bool.not_false, Bool.or_true, if_true]
    · have hc : ¬ (f.Generate && decide ("services.proto".toList <:+ f.Proto.Name)) = true := by
        rw [Bool.and_eq_true]
        exact fun h => hg h.1
      rw [if_neg hc]
      unfold mainStep
      simp only [Bool.not_eq_true] at hg
      simp only [hg, Bool.not_false, Bool.true_or, if_true]

/-- C1: the generated files of `main` are, in the order of the input, the files
made for the schema files whose `Generate` flag is set and whose name ends with
`services.proto`, one per such schema file; nothing is made for the other
schema files, so there are as many generated files as eligible schema files. -/
theorem C1_schema_selection (opts : Options) (files : List File) :
    main opts files
      = (files.filter
          (fun f => f.Generate && decide ("services.proto".toList <:+ f.Proto.Name))).map
          (emitFile opts) ∧
    (main opts files).length
      = files.countP
          (fun f => f.Generate && decide ("services.proto".toList <:+ f.Proto.Name)) := by
  have h := foldl_mainStep opts files []
  simp only [List.nil_append] at h
  refine ⟨h, ?_⟩
  unfold main
  rw [h, List.length_map, List.countP_eq_length_filter]

/-- C2: for a schema file whose name ends with `services.proto`, the name of the
generated file is the name of the schema file without its trailing `.proto`,
followed by `_pprpc.pb.go`, and the generated file has the import path of the
schema file. -/
theorem C2_output_file_naming (opts : Options) (f : File) (stem : GoString)
    (hsuffix : "services.proto".toList <:+ f.Proto.Name)
    (hstem : f.Proto.Name = stem ++ ".proto".toList) :
    (emitFile opts f).filename = stem ++ "_pprpc.pb.go".toList ∧
    (emitFile opts f).goImportPath = f.GoImportPath := by
  obtain ⟨h1, h2, _⟩ := emitFile_meta opts f
  refine ⟨?_, h2⟩
  obtain ⟨p, hp⟩ := hsuffix
  have hst : stem = p ++ "services".toList := by
    have e : stem ++ ".proto".toList = (p ++ "services".toList) ++ ".proto".toList := by
      rw [← hstem, ← hp]; simp
    exact List.append_cancel_right e
  rw [h1, ← hp, TrimRight_services_proto, hst]

theorem C2_output_file_naming_witness :
    "services.proto".toList <:+ "order.services.proto".toList ∧
    "order.services.proto".toList = "order.services".toList ++ ".proto".toList ∧
    (emitFile ⟨"pkg/domain".toList, "pkg/usecase".toList, "pkg/dts".toList⟩
        ⟨⟨"order.services.proto".toList⟩, "rpc".toList, "app/rpc".toList, true, []⟩).filename
      = "order.services".toList ++ "_pprpc.pb.go".toList ∧
    (emitFile ⟨"pkg/domain".toList, "pkg/usecase".toList, "pkg/dts".toList⟩
        ⟨⟨"order.services.proto".toList⟩, "rpc".toList, "app/rpc".toList, true, []⟩).goImportPath
      = "app/rpc".toList :=
  ⟨by decide, by decide,
    C2_output_file_naming ⟨"pkg/domain".toList, "pkg/usecase".toList, "pkg/dts".toList⟩
      ⟨⟨"order.services.proto".toList⟩, "rpc".toList, "app/rpc".toList, true, []⟩
      "order.services".toList (by decide) (by decide)⟩

/-! ## Routing of the request and response types -/

/-- C3: `requestPramIdent` asks `QualifiedGoIdent` for the identifier with the
bare name `n`, at the use-case root when `n` ends with `Param` or with `Params`
and at the domain root otherwise; `Widget` goes to the domain root. -/
theorem C3_request_parameter_routing (opts : Options) (gf : GeneratedFile) (n : GoString) :
    (requestPramIdent opts gf n).1
      = Piece.qualified ⟨n, if "Param".toList <:+ n ∨ "Params".toList <:+ n
          then opts.useCaseImportPath else opts.domainImportPath⟩ ∧
    (requestPramIdent opts gf n).2.resolved
      = gf.resolved ++ [⟨n, if "Param".toList <:+ n ∨ "Params".toList <:+ n
          then opts.useCaseImportPath else opts.domainImportPath⟩] ∧
    (requestPramIdent opts gf "Widget".toList).1
      = Piece.qualified ⟨"Widget".toList, opts.domainImportPath⟩ := by
  refine ⟨requestPramIdent_fst opts gf n, ?_, ?_⟩
  · unfold requestPramIdent
    by_cases h : "Param".toList <:+ n ∨ "Params".toList <:+ n
    · have h2 : (HasSuffix n "Param".toList || HasSuffix n "Params".toList) = true := by
        rw [Bool.or_eq_true, HasSuffix_iff, HasSuffix_iff]; exact h
      rw [if_pos h2, if_pos h]; rfl
    · have h2 : ¬ (HasSuffix n "Param".toList || HasSuffix n "Params".toList) = true := by
        rw [Bool.or_eq_true, HasSuffix_iff, HasSuffix_iff]; exact h
      rw [if_neg h2, if_neg h]; rfl
  · rw [requestPramIdent_fst]
    have : requestRoot opts "Widget".toList = opts.domainImportPath := by
      unfold requestRoot
      rw [if_neg (by decide)]
    rw [this]

/-- C4: `responsePayloadIdent` asks `QualifiedGoIdent` for the identifier with
the bare name `n`, at the use-case root when `n` ends with `Response` and at the
domain root otherwise. -/
theorem C4_response_payload_routing (opts : Options) (gf : GeneratedFile) (n : GoString) :
    (responsePayloadIdent opts gf n).1
      = Piece.qualified ⟨n, if "Response".toList <:+ n
          then opts.useCaseImportPath else opts.domainImportPath⟩ ∧
    (responsePayloadIdent opts gf n).2.resolved
      = gf.resolved ++ [⟨n, if "Response".toList <:+ n
          then opts.useCaseImportPath else opts.domainImportPath⟩] := by
  refine ⟨responsePayloadIdent_fst opts gf n, ?_⟩
  unfold responsePayloadIdent
  by_cases h : "Response".toList <:+ n
  · rw [if_pos ((HasSuffix_iff _ _).mpr h), if_pos h]; rfl
  · have h2 : ¬ HasSuffix n "Response".toList = true := fun h3 => h ((HasSuffix_iff _ _).mp h3)
    rw [if_neg h2, if_neg h]; rfl

/-! ## The name of the use-case dependency -/

/-- C5: the name derived from the service name `s` by
`strings.Replace(s, "Service", "UseCase", 1)` is `s` itself when `Service` does
not occur in `s`; otherwise `s` is `a ++ "Service" ++ b` at its leftmost
occurrence of `Service` and the derived name is `a ++ "UseCase" ++ b`: one
occurrence is replaced and the text around it is unchanged. -/
theorem C5_use_case_name (s : GoString) :
    (¬ "Service".toList <:+: s ∧
      Replace s "Service".toList "UseCase".toList 1 = s) ∨
    (∃ a b, s = a ++ "Service".toList ++ b ∧
      Replace s "Service".toList "UseCase".toList 1 = a ++ "UseCase".toList ++ b ∧
      ∀ a1 b1, s = a1 ++ "Service".toList ++ b1 → a.length ≤ a1.length) := by
  rcases Index_spec "Service".toList s with ⟨hn, hni⟩ | ⟨a, b, hi, hs, hleft⟩
  · left
    exact ⟨hni, Replace_one_of_none _ _ _ hn⟩
  · right
    refine ⟨a, b, hs, ?_, hleft⟩
    rw [hs] at hi ⊢
    exact Replace_one_of_some a b _ _ (by decide) hi

/-- C6, the claim as it is written, fails: the service name `ServiceService`
ends with `Service`, and its derived name is `UseCaseService`, not
`ServiceUseCase`. -/
theorem C6_counterexample :
    ¬ (Replace ("Service".toList ++ "Service".toList) "Service".toList "UseCase".toList 1
        = "Service".toList ++ "UseCase".toList) := by
  decide

/-- C6, amended: for a service name `p ++ "Service"` in which `Service` does not
occur before the trailing one (`p` holds no `Service`), the derived name is
`p ++ "UseCase"`. -/
theorem C6_trailing_service_replaced (p : GoString) (h : ¬ "Service".toList <:+: p) :
    Replace (p ++ "Service".toList) "Service".toList "UseCase".toList 1
      = p ++ "UseCase".toList := by
  have e := Replace_one_of_some p [] "Service".toList "UseCase".toList (by decide)
    (Index_trailing_Service p h)
  simpa using e

theorem C6_trailing_service_replaced_witness :
    ¬ "Service".toList <:+: "Order".toList ∧
    Replace ("Order".toList ++ "Service".toList) "Service".toList "UseCase".toList 1
      = "Order".toList ++ "UseCase".toList :=
  ⟨by decide, C6_trailing_service_replaced "Order".toList (by decide)⟩

/-! ## The adapter function of a method -/

/-- C7: for every method of every service of a file, the printed lines of the
file hold, one after the other, the header of the adapter function and its body:
the four slot declarations; the call of the data-transform function on
`(pbIn, &ucIn)` with the branch `return nil, err`; the call of
`service.UseCase.<method>(ucIn)` with the branch
`return nil, transformTwirpError(err)`; the call of the data-transform function
on `(ucOut, &pbOut)` with the branch `return nil, err`; and `return &pbOut, nil`.
The branches of the two transform calls do not name `transformTwirpError`, the
branch of the use-case call does. -/
theorem C7_adapter_body_shape (opts : Options) (f : File) (srv : Service) (method : Method)
    (hs : srv ∈ f.Services) (hm : method ∈ srv.Methods) :
    (∃ pre post, (emitFile opts f).buf
      = pre ++
         ([lit "func (service ", Piece.text (srv.GoName ++ "Rpc".toList), lit ") ",
            Piece.text method.GoName, lit "(_ ",
            Piece.qualified ⟨"Context".toList, "context".toList⟩, lit ", pbIn *",
            Piece.text method.Input.GoIdent.GoName, lit ") (*",
            Piece.text method.Output.GoIdent.GoName, lit ", error)", lit "\x7b"] ::
          ([ [lit "var err error"],
             [lit "var ucIn ", Piece.qualified ⟨method.Input.GoIdent.GoName,
               requestRoot opts method.Input.GoIdent.GoName⟩],
             [lit "var ucOut *", Piece.qualified ⟨method.Output.GoIdent.GoName,
               responseRoot opts method.Output.GoIdent.GoName⟩],
             [lit "var pbOut ", Piece.text method.Output.GoIdent.GoName],
             [] ] ++
           [ [lit "if err = ", Piece.qualified ⟨"Transform".toList, opts.dtsImportPath⟩,
               lit "(pbIn, &ucIn); err != nil \x7b "],
             [lit "\treturn nil, err"],
             [lit "\x7d"],
             [] ] ++
           [ [lit "if ucOut, err = service.UseCase.", Piece.text method.GoName,
               lit "(ucIn); err != nil \x7b"],
             [lit "  return nil, transformTwirpError(err)"],
             [lit "\x7d"],
             [] ] ++
           [ [lit "if err = ", Piece.qualified ⟨"Transform".toList, opts.dtsImportPath⟩,
               lit "(ucOut, &pbOut); err != nil \x7b "],
             [lit "\treturn nil, err"],
             [lit "\x7d"],
             [] ] ++
           [ [lit "return &pbOut, nil"],
             [lit "\x7d"] ])) ++ post) ∧
    ¬ "transformTwirpError".toList <:+: "\treturn nil, err".toList ∧
    "transformTwirpError".toList <:+: "  return nil, transformTwirpError(err)".toList := by
  refine ⟨?_, by decide, by decide⟩
  obtain ⟨l1, l2, hl⟩ := List.append_of_mem hs
  obtain ⟨m1, m2, hmm⟩ := List.append_of_mem hm
  refine ⟨preambleLines f ++ l1.flatMap (serviceLines opts contextPiece (dtsPiece opts)) ++
      wrapperLines opts srv ++
      m1.flatMap (methodLines opts (srv.GoName ++ "Rpc".toList) contextPiece (dtsPiece opts)),
    m2.flatMap (methodLines opts (srv.GoName ++ "Rpc".toList) contextPiece (dtsPiece opts)) ++
      l2.flatMap (serviceLines opts contextPiece (dtsPiece opts)) ++ [templateLine], ?_⟩
  rw [emitFile_buf, hl, List.flatMap_append, List.flatMap_cons]
  rw [show serviceLines opts contextPiece (dtsPiece opts) srv
      = wrapperLines opts srv ++
        (m1 ++ method :: m2).flatMap
          (methodLines opts (srv.GoName ++ "Rpc".toList) contextPiece (dtsPiece opts)) by
    rw [serviceLines, hmm]]
  rw [List.flatMap_append, List.flatMap_cons]
  simp only [methodLines, contextPiece, dtsPiece, List.append_assoc, List.cons_append,
    List.nil_append]

theorem C7_adapter_body_shape_witness :
    scenarioService ∈ scenarioFile.Services ∧ scenarioMethod ∈ scenarioService.Methods ∧
    (∃ pre post, (emitFile scenarioOptions scenarioFile).buf
      = pre ++
         ([lit "func (service ", Piece.text (scenarioService.GoName ++ "Rpc".toList), lit ") ",
            Piece.text scenarioMethod.GoName, lit "(_ ",
            Piece.qualified ⟨"Context".toList, "context".toList⟩, lit ", pbIn *",
            Piece.text scenarioMethod.Input.GoIdent.GoName, lit ") (*",
            Piece.text scenarioMethod.Output.GoIdent.GoName, lit ", error)", lit "\x7b"] ::
          ([ [lit "var err error"],
             [lit "var ucIn ", Piece.qualified ⟨scenarioMethod.Input.GoIdent.GoName,
               requestRoot scenarioOptions scenarioMethod.Input.GoIdent.GoName⟩],
             [lit "var ucOut *", Piece.qualified ⟨scenarioMethod.Output.GoIdent.GoName,
               responseRoot scenarioOptions scenarioMethod.Output.GoIdent.GoName⟩],
             [lit "var pbOut ", Piece.text scenarioMethod.Output.GoIdent.GoName],
             [] ] ++
           [ [lit "if err = ", Piece.qualified ⟨"Transform".toList, scenarioOptions.dtsImportPath⟩,
               lit "(pbIn, &ucIn); err != nil \x7b "],
             [lit "\treturn nil, err"],
             [lit "\x7d"],
             [] ] ++
           [ [lit "if ucOut, err = service.UseCase.", Piece.text scenarioMethod.GoName,
               lit "(ucIn); err != nil \x7b"],
             [lit "  return nil, transformTwirpError(err)"],
             [lit "\x7d"],
             [] ] ++
           [ [lit "if err = ", Piece.qualified ⟨"Transform".toList, scenarioOptions.dtsImportPath⟩,
               lit "(ucOut, &pbOut); err != nil \x7b "],
             [lit "\treturn nil, err"],
             [lit "\x7d"],
             [] ] ++
           [ [lit "return &pbOut, nil"],
             [lit "\x7d"] ])) ++ post) ∧
    ¬ "transformTwirpError".toList <:+: "\treturn nil, err".toList ∧
    "transformTwirpError".toList <:+: "  return nil, transformTwirpError(err)".toList :=
  ⟨by decide, by decide,
    C7_adapter_body_shape scenarioOptions scenarioFile scenarioService scenarioMethod
      (by decide) (by decide)⟩

/-! ## The preamble and the declared imports -/

/-- C8: every generated file starts with the marker comment and the package
declaration, and the imports it declares with `Import` are `errors`,
`github.com/twitchtv/twirp` and the option name `domainPath`, whatever the
configured domain root is. In the scenario, whose domain root is `pkg/domain`,
that root is not declared, and no identifier of the file is resolved against it
either. -/
theorem C8_imports_name_the_option (opts : Options) (f : File) :
    (emitFile opts f).buf.take 3
      = [ [lit "// Code generated by protoc-gen-go-pprpc. DO NOT EDIT."], [],
          [lit "package ", Piece.text f.GoPackageName] ] ∧
    (emitFile opts f).manualImports
      = ["errors".toList, "github.com/twitchtv/twirp".toList, "domainPath".toList] ∧
    scenarioOptions.domainImportPath = "pkg/domain".toList ∧
    "pkg/domain".toList ∉ (emitFile scenarioOptions scenarioFile).manualImports ∧
    "pkg/domain".toList ∉
      (emitFile scenarioOptions scenarioFile).resolved.map (fun i => i.GoImportPath) := by
  refine ⟨?_, (emitFile_meta opts f).2.2, rfl, ?_, ?_⟩
  · rw [emitFile_buf]
    simp [preambleLines]
  · rw [(emitFile_meta scenarioOptions scenarioFile).2.2]
    decide
  · decide

/-! ## The wrapper types -/

theorem typeHeaderName_methodLines (opts : Options) (rpc : GoString) (c d : Piece)
    (m : Method) : ∀ l ∈ methodLines opts rpc c d m, typeHeaderName l = none := by
  intro l hl
  simp only [methodLines, List.mem_cons, List.mem_singleton, List.not_mem_nil, or_false] at hl
  rcases hl with h | h | h | h | h | h | h | h | h | h | h | h | h | h | h | h | h | h | h | h
  all_goals subst h
  all_goals first
    | rfl
    | (cases c <;> cases d <;> rfl)

theorem wrapperTypes_skip (xs rest : List Line) (h : ∀ l ∈ xs, typeHeaderName l = none) :
    wrapperTypes (xs ++ rest) = wrapperTypes rest := by
  induction xs with
  | nil => rfl
  | cons x xs ih =>
    have hx : typeHeaderName x = none := h x (List.mem_cons_self _ _)
    rw [List.cons_append, wrapperTypes, hx]
    exact ih (fun l hl => h l (List.mem_cons_of_mem _ hl))

theorem wrapperTypes_serviceLines (opts : Options) (c d : Piece) (srv : Service)
    (rest : List Line) :
    wrapperTypes (serviceLines opts c d srv ++ rest)
      = (srv.GoName ++ "Rpc".toList,
          [[lit "UseCase ", Piece.qualified
            ⟨Replace srv.GoName "Service".toList "UseCase".toList 1,
              opts.useCaseImportPath⟩]]) :: wrapperTypes rest := by
  have hskip : wrapperTypes
      (srv.Methods.flatMap (methodLines opts (srv.GoName ++ "Rpc".toList) c d) ++ rest)
        = wrapperTypes rest := by
    apply wrapperTypes_skip
    intro l hl
    obtain ⟨m, _, hm⟩ := List.mem_flatMap.mp hl
    exact typeHeaderName_methodLines opts _ c d m l hm
  have hh : typeHeaderName
      [lit "type ", Piece.text (srv.GoName ++ "Rpc".toList), lit " struct \x7b"]
        = some (srv.GoName ++ "Rpc".toList) := by
    simp [typeHeaderName, lit]
  have h1 : typeHeaderName [lit "UseCase ", Piece.qualified
      ⟨Replace srv.GoName "Service".toList "UseCase".toList 1, opts.useCaseImportPath⟩]
        = none := rfl
  have h2 : typeHeaderName [lit "\x7d"] = none := rfl
  have h3 : typeHeaderName [lit ""] = none := rfl
  simp only [serviceLines, wrapperLines, List.cons_append, List.nil_append, List.append_assoc]
  rw [wrapperTypes, hh]
  simp only []
  rw [wrapperTypes, h1]
  simp only []
  rw [wrapperTypes, h2]
  simp only []
  rw [wrapperTypes, h3]
  simp only []
  rw [hskip]
  rfl

theorem wrapperTypes_services (opts : Options) (c d : Piece) (ss : List Service)
    (rest : List Line) :
    wrapperTypes (ss.flatMap (serviceLines opts c d) ++ rest)
      = ss.map (fun s => (s.GoName ++ "Rpc".toList,
          [[lit "UseCase ", Piece.qualified
            ⟨Replace s.GoName "Service".toList "UseCase".toList 1,
              opts.useCaseImportPath⟩]])) ++ wrapperTypes rest := by
  induction ss with
  | nil => rfl
  | cons s ss ih =>
    rw [List.flatMap_cons, List.append_assoc, wrapperTypes_serviceLines, ih]
    rfl

/-- C9: the type declarations among the printed lines of a file are, in file
order, one per service: the wrapper of the service `s` is named `s ++ "Rpc"` and
the lines between its header and its closing brace are the single field line
`UseCase <type>`, whose type is the identifier with the bare name
`strings.Replace(s, "Service", "UseCase", 1)` at the use-case root. -/
theorem C9_service_wrappers (opts : Options) (f : File) :
    wrapperTypes (emitFile opts f).buf
      = f.Services.map (fun s => (s.GoName ++ "Rpc".toList,
          [[lit "UseCase ", Piece.qualified
            ⟨Replace s.GoName "Service".toList "UseCase".toList 1,
              opts.useCaseImportPath⟩]])) := by
  rw [emitFile_buf, List.append_assoc, wrapperTypes_skip _ _ (by
    intro l hl
    simp only [preambleLines, List.mem_cons, List.mem_singleton, List.not_mem_nil,
      or_false] at hl
    rcases hl with h | h | h <;> subst h <;> rfl)]
  rw [wrapperTypes_services]
  have : wrapperTypes [templateLine] = [] := rfl
  rw [this, List.append_nil]

/-! ## The routine `transformTwirpError` -/

theorem methodLines_ne_template (opts : Options) (rpc : GoString) (c d : Piece) (m : Method) :
    ∀ l ∈ methodLines opts rpc c d m, l ≠ [Piece.text transformTwirpErrFnTemplate] := by
  intro l hl
  simp only [methodLines, List.mem_cons, List.mem_singleton, List.not_mem_nil, or_false] at hl
  rcases hl with h | h | h | h | h | h | h | h | h | h | h | h | h | h | h | h | h | h | h | h
  all_goals subst h
  all_goals first
    | decide
    | simp

theorem serviceLines_ne_template (opts : Options) (c d : Piece) (srv : Service) :
    ∀ l ∈ serviceLines opts c d srv, l ≠ [Piece.text transformTwirpErrFnTemplate] := by
  intro l hl
  rcases List.mem_append.mp hl with h | h
  · simp only [wrapperLines, List.mem_cons, List.mem_singleton, List.not_mem_nil,
      or_false] at h
    rcases h with h | h | h | h
    all_goals subst h
    all_goals first
      | decide
      | simp
  · obtain ⟨m, _, hm⟩ := List.mem_flatMap.mp h
    exact methodLines_ne_template opts _ c d m l hm

theorem preambleLines_ne_template (f : File) :
    ∀ l ∈ preambleLines f, l ≠ [Piece.text transformTwirpErrFnTemplate] := by
  intro l hl
  simp only [preambleLines, List.mem_cons, List.mem_singleton, List.not_mem_nil,
    or_false] at hl
  rcases hl with h | h | h
  all_goals subst h
  all_goals first
    | decide
    | simp

/-- C10: the printed lines of a file are the preamble, then the wrapper type and
the adapter functions of every service, then the line that holds the routine
`transformTwirpError`: that line is the last one, it is not among the lines
before it, and it occurs exactly once. -/
theorem C10_error_routine_once_and_last (opts : Options) (f : File) :
    (∃ front, (emitFile opts f).buf = front ++ [[Piece.text transformTwirpErrFnTemplate]] ∧
      front = preambleLines f ++
        f.Services.flatMap (fun srv => wrapperLines opts srv ++
          srv.Methods.flatMap (methodLines opts (srv.GoName ++ "Rpc".toList)
            (Piece.qualified ⟨"Context".toList, "context".toList⟩)
            (Piece.qualified ⟨"Transform".toList, opts.dtsImportPath⟩))) ∧
      [Piece.text transformTwirpErrFnTemplate] ∉ front) ∧
    (emitFile opts f).buf.getLast? = some [Piece.text transformTwirpErrFnTemplate] ∧
    (emitFile opts f).buf.count [Piece.text transformTwirpErrFnTemplate] = 1 := by
  have hnot : [Piece.text transformTwirpErrFnTemplate] ∉ preambleLines f ++
      f.Services.flatMap (serviceLines opts contextPiece (dtsPiece opts)) := by
    intro hmem
    rcases List.mem_append.mp hmem with h | h
    · exact preambleLines_ne_template f _ h rfl
    · obtain ⟨srv, _, hsrv⟩ := List.mem_flatMap.mp h
      exact serviceLines_ne_template opts _ _ srv _ hsrv rfl
  refine ⟨⟨_, emitFile_buf opts f, rfl, hnot⟩, ?_, ?_⟩
  · rw [emitFile_buf]
    simp [templateLine]
  · rw [emitFile_buf, List.count_append, List.count_eq_zero.mpr hnot]
    simp [templateLine]

/-! ## What the routine `transformTwirpError` returns -/

/-- C11: for every error, `transformTwirpError` returns a transport error whose
code is `twirp.Internal`, whose message is the message of the error and whose
cause is the error. Its metadata hold the key `domainCode` exactly when the
error is a `domain.Error`, with the decimal text of the field `Code` as the
value, and hold nothing else; the code 404 gives the value `404`. -/
theorem C11_error_translation (err : GoError) :
    (transformTwirpError err).code = Internal ∧
    (transformTwirpError err).msg = err.Error ∧
    (transformTwirpError err).cause = some err ∧
    (transformTwirpError err).meta.lookup "domainCode".toList
      = err.domainCode.map SprintfD ∧
    (transformTwirpError err).meta
      = (err.domainCode.map (fun c => ("domainCode".toList, SprintfD c))).toList ∧
    (transformTwirpError ⟨err.Error, some 404⟩).meta
      = [("domainCode".toList, "404".toList)] := by
  have h404 : SprintfD 404 = "404".toList := by decide
  obtain ⟨m, dc⟩ := err
  cases dc with
  | none => exact ⟨rfl, rfl, rfl, rfl, rfl, by rw [← h404]; rfl⟩
  | some c =>
    refine ⟨rfl, rfl, rfl, ?_, rfl, by rw [← h404]; rfl⟩
    simp [transformTwirpError, WrapError, TwirpError.WithMeta, NewError, List.lookup]

/-! ## The scenario, end to end -/

/-- C12: for the one flagged file `order.services.proto` with the service
`OrderService` and its method `CreateOrder(CreateOrderParam) returns
(CreateOrderResponse)`, and the roots `pkg/domain`, `pkg/usecase` and `pkg/dts`,
`main` makes exactly one file. Its only type declaration is `OrderServiceRpc`
with the single field `UseCase` of the type `OrderUseCase` at `pkg/usecase`; its
only adapter function is `CreateOrder` on `OrderServiceRpc`, whose slot `ucIn`
has the type `CreateOrderParam` at `pkg/usecase` and whose slot `ucOut` has the
type pointer to `CreateOrderResponse` at `pkg/usecase`. The package name and
the import paths of the file and of the two messages are arbitrary. -/
theorem C12_end_to_end_scenario (pkg path inPath outPath : GoString) :
    ∃ unit,
      main ⟨"pkg/domain".toList, "pkg/usecase".toList, "pkg/dts".toList⟩
        [⟨⟨"order.services.proto".toList⟩, pkg, path, true,
          [⟨"OrderService".toList,
            [⟨"CreateOrder".toList, ⟨⟨"CreateOrderParam".toList, inPath⟩⟩,
              ⟨⟨"CreateOrderResponse".toList, outPath⟩⟩⟩]⟩]⟩] = [unit] ∧
      unit.filename = "order.services_pprpc.pb.go".toList ∧
      unit.goImportPath = path ∧
      wrapperTypes unit.buf
        = [("OrderServiceRpc".toList,
            [[lit "UseCase ",
              Piece.qualified ⟨"OrderUseCase".toList, "pkg/usecase".toList⟩]])] ∧
      adapterFunctions unit.buf = [("OrderServiceRpc".toList, "CreateOrder".toList)] ∧
      unit.buf
        = [ [lit "// Code generated by protoc-gen-go-pprpc. DO NOT EDIT."],
            [],
            [lit "package ", Piece.text pkg],
            [lit "type ", lit "OrderServiceRpc", lit " struct \x7b"],
            [lit "UseCase ", Piece.qualified ⟨"OrderUseCase".toList, "pkg/usecase".toList⟩],
            [lit "\x7d"],
            [lit ""],
            [lit "func (service ", lit "OrderServiceRpc", lit ") ", lit "CreateOrder",
              lit "(_ ", Piece.qualified ⟨"Context".toList, "context".toList⟩,
              lit ", pbIn *", lit "CreateOrderParam", lit ") (*", lit "CreateOrderResponse",
              lit ", error)", lit "\x7b"],
            [lit "var err error"],
            [lit "var ucIn ",
              Piece.qualified ⟨"CreateOrderParam".toList, "pkg/usecase".toList⟩],
            [lit "var ucOut *",
              Piece.qualified ⟨"CreateOrderResponse".toList, "pkg/usecase".toList⟩],
            [lit "var pbOut ", lit "CreateOrderResponse"],
            [],
            [lit "if err = ", Piece.qualified ⟨"Transform".toList, "pkg/dts".toList⟩,
              lit "(pbIn, &ucIn); err != nil \x7b "],
            [lit "\treturn nil, err"],
            [lit "\x7d"],
            [],
            [lit "if ucOut, err = service.UseCase.", lit "CreateOrder",
              lit "(ucIn); err != nil \x7b"],
            [lit "  return nil, transformTwirpError(err)"],
            [lit "\x7d"],
            [],
            [lit "if err = ", Piece.qualified ⟨"Transform".toList, "pkg/dts".toList⟩,
              lit "(ucOut, &pbOut); err != nil \x7b "],
            [lit "\treturn nil, err"],
            [lit "\x7d"],
            [],
            [lit "return &pbOut, nil"],
            [lit "\x7d"],
            [Piece.text transformTwirpErrFnTemplate] ] := by
  refine ⟨emitFile ⟨"pkg/domain".toList, "pkg/usecase".toList, "pkg/dts".toList⟩
      ⟨⟨"order.services.proto".toList⟩, pkg, path, true,
          [⟨"OrderService".toList,
            [⟨"CreateOrder".toList, ⟨⟨"CreateOrderParam".toList, inPath⟩⟩,
              ⟨⟨"CreateOrderResponse".toList, outPath⟩⟩⟩]⟩]⟩,
    ?_, ?_, ?_, ?_, ?_, ?_⟩
  · rfl
  · rw [(emitFile_meta _ _).1]; rfl
  · exact (emitFile_meta _ _).2.1
  · rw [emitFile_buf]; rfl
  · rw [emitFile_buf]; rfl
  · rw [emitFile_buf]; rfl

/-! ## One adapter function per method -/

theorem filterMap_funcHeader_methodLines (opts : Options) (rpc : GoString) (c d : Piece)
    (m : Method) :
    (methodLines opts rpc c d m).filterMap funcHeader = [(rpc, m.GoName)] := by
  cases d <;> rfl

theorem filterMap_funcHeader_methods (opts : Options) (rpc : GoString) (c d : Piece)
    (ms : List Method) :
    (ms.flatMap (methodLines opts rpc c d)).filterMap funcHeader
      = ms.map (fun m => (rpc, m.GoName)) := by
  induction ms with
  | nil => rfl
  | cons m ms ih =>
    rw [List.flatMap_cons, List.filterMap_append, filterMap_funcHeader_methodLines, ih]
    rfl

theorem filterMap_funcHeader_serviceLines (opts : Options) (c d : Piece) (srv : Service) :
    (serviceLines opts c d srv).filterMap funcHeader
      = srv.Methods.map (fun m => (srv.GoName ++ "Rpc".toList, m.GoName)) := by
  rw [serviceLines, List.filterMap_append, filterMap_funcHeader_methods]
  have : (wrapperLines opts srv).filterMap funcHeader = [] := rfl
  rw [this, List.nil_append]

theorem filterMap_funcHeader_services (opts : Options) (c d : Piece) (ss : List Service) :
    (ss.flatMap (serviceLines opts c d)).filterMap funcHeader
      = ss.flatMap (fun s => s.Methods.map (fun m => (s.GoName ++ "Rpc".toList, m.GoName))) := by
  induction ss with
  | nil => rfl
  | cons s ss ih =>
    rw [List.flatMap_cons, List.filterMap_append, filterMap_funcHeader_serviceLines, ih,
      List.flatMap_cons]

theorem adapterFunctions_emitFile (opts : Options) (f : File) :
    adapterFunctions (emitFile opts f).buf
      = f.Services.flatMap
          (fun s => s.Methods.map (fun m => (s.GoName ++ "Rpc".toList, m.GoName))) := by
  unfold adapterFunctions
  rw [emitFile_buf, List.filterMap_append, List.filterMap_append,
    filterMap_funcHeader_services]
  have h1 : (preambleLines f).filterMap funcHeader = [] := rfl
  have h2 : [templateLine].filterMap funcHeader = [] := rfl
  rw [h1, h2, List.nil_append, List.append_nil]

/-- C13: the adapter functions among the printed lines of a file are, in order,
the methods of the first service in declaration order, then those of the second
service, and so on: one function per method, named after the method, with the
receiver type `<ServiceName>Rpc` of the service that owns the method. Their
number is the total number of methods of the file. -/
theorem C13_one_adapter_per_method (opts : Options) (f : File) :
    adapterFunctions (emitFile opts f).buf
      = f.Services.flatMap
          (fun s => s.Methods.map (fun m => (s.GoName ++ "Rpc".toList, m.GoName))) ∧
    (adapterFunctions (emitFile opts f).buf).length
      = (f.Services.map (fun s => s.Methods.length)).sum := by
  refine ⟨adapterFunctions_emitFile opts f, ?_⟩
  rw [adapterFunctions_emitFile]
  induction f.Services with
  | nil => rfl
  | cons s ss ih =>
    rw [List.flatMap_cons, List.length_append, ih, List.length_map, List.map_cons,
      List.sum_cons]

/-! ## The local slots of an adapter function -/

/-- C14: for every method of every service of a file, the header of its adapter
function is followed at once by the four declarations `var err error`,
`var ucIn <T>` with `T` the identifier that the request parameter rule gives for
the input type name, `var ucOut *<U>` with `U` the identifier that the response
payload rule gives for the output type name, and `var pbOut <o>` with `o` the
bare output type name as plain text, which no root enters. -/
theorem C14_local_slot_types (opts : Options) (f : File) (srv : Service) (method : Method)
    (hs : srv ∈ f.Services) (hm : method ∈ srv.Methods) :
    ∃ pre post, (emitFile opts f).buf
      = pre ++
         [ [lit "func (service ", Piece.text (srv.GoName ++ "Rpc".toList), lit ") ",
             Piece.text method.GoName, lit "(_ ",
             Piece.qualified ⟨"Context".toList, "context".toList⟩, lit ", pbIn *",
             Piece.text method.Input.GoIdent.GoName, lit ") (*",
             Piece.text method.Output.GoIdent.GoName, lit ", error)", lit "\x7b"],
           [lit "var err error"],
           [lit "var ucIn ", Piece.qualified ⟨method.Input.GoIdent.GoName,
             if "Param".toList <:+ method.Input.GoIdent.GoName ∨
                 "Params".toList <:+ method.Input.GoIdent.GoName
               then opts.useCaseImportPath else opts.domainImportPath⟩],
           [lit "var ucOut *", Piece.qualified ⟨method.Output.GoIdent.GoName,
             if "Response".toList <:+ method.Output.GoIdent.GoName
               then opts.useCaseImportPath else opts.domainImportPath⟩],
           [lit "var pbOut ", Piece.text method.Output.GoIdent.GoName] ] ++ post := by
  obtain ⟨l1, l2, hl⟩ := List.append_of_mem hs
  obtain ⟨m1, m2, hmm⟩ := List.append_of_mem hm
  refine ⟨preambleLines f ++ l1.flatMap (serviceLines opts contextPiece (dtsPiece opts)) ++
      wrapperLines opts srv ++
      m1.flatMap (methodLines opts (srv.GoName ++ "Rpc".toList) contextPiece (dtsPiece opts)),
    (methodLines opts (srv.GoName ++ "Rpc".toList) contextPiece (dtsPiece opts) method).drop 5
      ++ m2.flatMap
        (methodLines opts (srv.GoName ++ "Rpc".toList) contextPiece (dtsPiece opts)) ++
      l2.flatMap (serviceLines opts contextPiece (dtsPiece opts)) ++ [templateLine], ?_⟩
  rw [emitFile_buf, hl, List.flatMap_append, List.flatMap_cons]
  rw [show serviceLines opts contextPiece (dtsPiece opts) srv
      = wrapperLines opts srv ++
        (m1 ++ method :: m2).flatMap
          (methodLines opts (srv.GoName ++ "Rpc".toList) contextPiece (dtsPiece opts)) by
    rw [serviceLines, hmm]]
  rw [List.flatMap_append, List.flatMap_cons]
  simp only [methodLines, contextPiece, dtsPiece, requestRoot, responseRoot, List.drop,
    List.append_assoc, List.cons_append, List.nil_append]

theorem C14_local_slot_types_witness :
    scenarioService ∈ scenarioFile.Services ∧ scenarioMethod ∈ scenarioService.Methods ∧
    ∃ pre post, (emitFile scenarioOptions scenarioFile).buf
      = pre ++
         [ [lit "func (service ", Piece.text (scenarioService.GoName ++ "Rpc".toList), lit ") ",
             Piece.text scenarioMethod.GoName, lit "(_ ",
             Piece.qualified ⟨"Context".toList, "context".toList⟩, lit ", pbIn *",
             Piece.text scenarioMethod.Input.GoIdent.GoName, lit ") (*",
             Piece.text scenarioMethod.Output.GoIdent.GoName, lit ", error)", lit "\x7b"],
           [lit "var err error"],
           [lit "var ucIn ", Piece.qualified ⟨scenarioMethod.Input.GoIdent.GoName,
             if "Param".toList <:+ scenarioMethod.Input.GoIdent.GoName ∨
                 "Params".toList <:+ scenarioMethod.Input.GoIdent.GoName
               then scenarioOptions.useCaseImportPath else scenarioOptions.domainImportPath⟩],
           [lit "var ucOut *", Piece.qualified ⟨scenarioMethod.Output.GoIdent.GoName,
             if "Response".toList <:+ scenarioMethod.Output.GoIdent.GoName
               then scenarioOptions.useCaseImportPath else scenarioOptions.domainImportPath⟩],
           [lit "var pbOut ", Piece.text scenarioMethod.Output.GoIdent.GoName] ] ++ post :=
  ⟨by decide, by decide,
    C14_local_slot_types scenarioOptions scenarioFile scenarioService scenarioMethod
      (by decide) (by decide)⟩

/-! ## The identifiers with a fixed role -/

/-- C15: whatever the three roots are, `contextIdent` asks for `Context` at the
fixed path `context`, `dtsTransformIdent` asks for `Transform` at the configured
data-transform root, `useCaseIdent n` asks for `n` at the use-case root and
`domainIdent n` asks for `n` at the domain root; each call records exactly that
identifier. -/
theorem C15_fixed_role_resolution (opts : Options) (gf : GeneratedFile) (n : GoString) :
    (contextIdent gf).1 = Piece.qualified ⟨"Context".toList, "context".toList⟩ ∧
    (contextIdent gf).2.resolved = gf.resolved ++ [⟨"Context".toList, "context".toList⟩] ∧
    (dtsTransformIdent opts gf).1
      = Piece.qualified ⟨"Transform".toList, opts.dtsImportPath⟩ ∧
    (dtsTransformIdent opts gf).2.resolved
      = gf.resolved ++ [⟨"Transform".toList, opts.dtsImportPath⟩] ∧
    (useCaseIdent opts gf n).1 = Piece.qualified ⟨n, opts.useCaseImportPath⟩ ∧
    (useCaseIdent opts gf n).2.resolved = gf.resolved ++ [⟨n, opts.useCaseImportPath⟩] ∧
    (domainIdent opts gf n).1 = Piece.qualified ⟨n, opts.domainImportPath⟩ ∧
    (domainIdent opts gf n).2.resolved = gf.resolved ++ [⟨n, opts.domainImportPath⟩] :=
  ⟨rfl, rfl, rfl, rfl, rfl, rfl, rfl, rfl⟩

/-! ## The names of the generated files do not collide -/

/-- C16: two different schema file names that both end with `services.proto`
give two different names of generated files, so the generated files of two
eligible schema files with different names have different names. -/
theorem C16_output_names_collision_free (a b : GoString)
    (ha : "services.proto".toList <:+ a) (hb : "services.proto".toList <:+ b)
    (hne : a ≠ b) :
    TrimRight a ".proto".toList ++ "_pprpc.pb.go".toList
      ≠ TrimRight b ".proto".toList ++ "_pprpc.pb.go".toList ∧
    ∀ (opts : Options) (fa fb : File), fa.Proto.Name = a → fb.Proto.Name = b →
      (emitFile opts fa).filename ≠ (emitFile opts fb).filename := by
  have key : TrimRight a ".proto".toList ++ "_pprpc.pb.go".toList
      ≠ TrimRight b ".proto".toList ++ "_pprpc.pb.go".toList := by
    obtain ⟨p, hp⟩ := ha
    obtain ⟨q, hq⟩ := hb
    intro h
    rw [← hp, ← hq, TrimRight_services_proto, TrimRight_services_proto] at h
    have h2 : p = q := List.append_cancel_right (List.append_cancel_right h)
    apply hne
    rw [← hp, ← hq, h2]
  refine ⟨key, ?_⟩
  intro opts fa fb hfa hfb
  rw [(emitFile_meta opts fa).1, (emitFile_meta opts fb).1, hfa, hfb]
  exact key

theorem C16_output_names_collision_free_witness :
    "services.proto".toList <:+ "order.services.proto".toList ∧
    "services.proto".toList <:+ "a.proto.services.proto".toList ∧
    "order.services.proto".toList ≠ "a.proto.services.proto".toList ∧
    (TrimRight "order.services.proto".toList ".proto".toList ++ "_pprpc.pb.go".toList
      ≠ TrimRight "a.proto.services.proto".toList ".proto".toList ++ "_pprpc.pb.go".toList ∧
    ∀ (opts : Options) (fa fb : File), fa.Proto.Name = "order.services.proto".toList →
      fb.Proto.Name = "a.proto.services.proto".toList →
      (emitFile opts fa).filename ≠ (emitFile opts fb).filename) :=
  ⟨by decide, by decide, by decide,
    C16_output_names_collision_free "order.services.proto".toList
      "a.proto.services.proto".toList (by decide) (by decide) (by decide)⟩

/-! ## The imports that the routine needs -/

set_option maxRecDepth 8000

/-- C17: the text of the routine names the packages `fmt`, `twirp` and `domain`.
Every generated file declares with `Import` the paths `errors`,
`github.com/twitchtv/twirp` and `domainPath`. In the scenario, whose domain root
is `pkg/domain`, the declared imports are those three and the paths `context`,
`pkg/dts` and `pkg/usecase` of the resolved identifiers:
`github.com/twitchtv/twirp` is among them, `fmt` and `pkg/domain` are not. -/
theorem C17_routine_imports (opts : Options) (f : File) :
    "fmt.Sprintf(".toList <:+: transformTwirpErrFnTemplate ∧
    "twirp.NewError(".toList <:+: transformTwirpErrFnTemplate ∧
    "domain.Error".toList <:+: transformTwirpErrFnTemplate ∧
    (emitFile opts f).manualImports
      = ["errors".toList, "github.com/twitchtv/twirp".toList, "domainPath".toList] ∧
    declaredImports (emitFile scenarioOptions scenarioFile)
      = ["errors".toList, "github.com/twitchtv/twirp".toList, "domainPath".toList,
         "context".toList, "pkg/dts".toList, "pkg/usecase".toList, "pkg/usecase".toList,
         "pkg/usecase".toList] ∧
    "github.com/twitchtv/twirp".toList ∈ declaredImports (emitFile scenarioOptions scenarioFile) ∧
    "fmt".toList ∉ declaredImports (emitFile scenarioOptions scenarioFile) ∧
    scenarioOptions.domainImportPath ∉
      declaredImports (emitFile scenarioOptions scenarioFile) := by
  have hd : declaredImports (emitFile scenarioOptions scenarioFile)
      = ["errors".toList, "github.com/twitchtv/twirp".toList, "domainPath".toList,
         "context".toList, "pkg/dts".toList, "pkg/usecase".toList, "pkg/usecase".toList,
         "pkg/usecase".toList] := by
    decide
  refine ⟨by decide, by decide, by decide, (emitFile_meta opts f).2.2, hd, ?_, ?_, ?_⟩
  · rw [hd]; decide
  · rw [hd]; decide
  · rw [hd]; decide

/-! ## A file without services -/

/-- C18: for a flagged schema file whose name ends with `services.proto` and
that has no service, `main` makes exactly one file, and its printed lines are
the marker comment, the blank line and the package declaration, followed at
once by the routine `transformTwirpError`; it holds no wrapper type and no
adapter function. -/
theorem C18_file_without_services (opts : Options) (f : File)
    (hg : f.Generate = true) (hs : "services.proto".toList <:+ f.Proto.Name)
    (he : f.Services = []) :
    (∃ unit, main opts [f] = [unit] ∧
      unit.buf
        = [ [lit "// Code generated by protoc-gen-go-pprpc. DO NOT EDIT."],
            [],
            [lit "package ", Piece.text (f).GoPackageName],
            [Piece.text transformTwirpErrFnTemplate] ] ∧
      wrapperTypes unit.buf = [] ∧
      adapterFunctions unit.buf = []) := by
  have hm : main opts [f] = [emitFile opts f] := by
    unfold main
    rw [foldl_mainStep]
    have hc : (f.Generate && decide ("services.proto".toList <:+ f.Proto.Name)) = true := by
      rw [hg, decide_eq_true hs]; rfl
    rw [List.filter_cons, if_pos hc]
    rfl
  have hb : (emitFile opts f).buf
      = [ [lit "// Code generated by protoc-gen-go-pprpc. DO NOT EDIT."],
          [],
          [lit "package ", Piece.text f.GoPackageName],
          [Piece.text transformTwirpErrFnTemplate] ] := by
    rw [emitFile_buf, he]
    rfl
  refine ⟨emitFile opts f, hm, hb, ?_, ?_⟩
  · rw [hb]; rfl
  · rw [hb]; rfl

theorem C18_file_without_services_witness :
    (File.mk ⟨"empty.services.proto".toList⟩ "rpc".toList "pkg/rpc".toList true []).Generate = true ∧
    "services.proto".toList <:+ (File.mk ⟨"empty.services.proto".toList⟩ "rpc".toList "pkg/rpc".toList true []).Proto.Name ∧
    (File.mk ⟨"empty.services.proto".toList⟩ "rpc".toList "pkg/rpc".toList true []).Services = [] ∧
    (∃ unit, main scenarioOptions [(File.mk ⟨"empty.services.proto".toList⟩ "rpc".toList "pkg/rpc".toList true [])] = [unit] ∧
      unit.buf
        = [ [lit "// Code generated by protoc-gen-go-pprpc. DO NOT EDIT."],
            [],
            [lit "package ", Piece.text ((File.mk ⟨"empty.services.proto".toList⟩ "rpc".toList "pkg/rpc".toList true [])).GoPackageName],
            [Piece.text transformTwirpErrFnTemplate] ] ∧
      wrapperTypes unit.buf = [] ∧
      adapterFunctions unit.buf = []) :=
  ⟨rfl, by decide, rfl,
    C18_file_without_services scenarioOptions
      (File.mk ⟨"empty.services.proto".toList⟩ "rpc".toList "pkg/rpc".toList true []) rfl (by decide) rfl⟩

end Pprpc
